import Mathlib

/-!
Shallow embedding of the literature-analysis single-page application
(src/app/page.tsx): the input classifier, the material registry, the
submission builder, the engine-response validator, the export actions and
the transient copy-feedback timer, together with theorems settling the
frozen claims about them.
-/

/-- Model of a JavaScript runtime value as produced by JSON parsing and
field access.  Numbers are modelled as rationals (the claims never exercise
floating-point rounding). -/
inductive JSValue where
  | null
  | undefined
  | bool (b : Bool)
  | num (q : Rat)
  | str (s : String)
  | arr (elems : List JSValue)
  | obj (fields : List (String × JSValue))

/-- JavaScript truthiness: null, undefined, false, 0 and the empty string
are falsy; every object and array is truthy. -/
def truthy : JSValue → Bool
  | .null => false
  | .undefined => false
  | .bool b => b
  | .num q => q != 0
  | .str s => s != ""
  | .arr _ => true
  | .obj _ => true

/-- Property access `v.key`: on an object, the first binding for the key
(undefined when absent); on every non-object, undefined.  The embedded code
only accesses properties behind truthiness guards, so the null/undefined
TypeError case is never reached. -/
def getField (v : JSValue) (key : String) : JSValue :=
  match v with
  | .obj fields =>
    match fields.find? (fun p => p.fst == key) with
    | some p => p.snd
    | none => .undefined
  | _ => .undefined

/-- JavaScript `a || b`: the left operand when truthy, otherwise the right. -/
def jsOr (a b : JSValue) : JSValue := if truthy a then a else b

/-- The double-quote character, kept out of character-literal position. -/
def quoteChar : Char := Char.ofNat 34

/-- The backslash character. -/
def backslashChar : Char := Char.ofNat 92

/-- The opening curly-brace character. -/
def lbraceChar : Char := Char.ofNat 123

/-- The closing curly-brace character. -/
def rbraceChar : Char := Char.ofNat 125

/-- JSON insignificant whitespace. -/
def isJsonWs (c : Char) : Bool := c == ' ' || c == '\t' || c == '\n' || c == '\r'

/-- Drop leading JSON whitespace. -/
def skipWs : List Char → List Char
  | [] => []
  | c :: cs => if isJsonWs c then skipWs cs else c :: cs

/-- Value of a hexadecimal digit, if any. -/
def hexVal (c : Char) : Option Nat :=
  if c.isDigit then some (c.toNat - 48)
  else if 'a' ≤ c && c ≤ 'f' then some (c.toNat - 87)
  else if 'A' ≤ c && c ≤ 'F' then some (c.toNat - 55)
  else none

/-- Parse the body of a JSON string after the opening quote, accumulating
decoded characters in reverse. -/
def parseStringBody (acc : List Char) : List Char → Option (String × List Char)
  | [] => none
  | c :: cs =>
    if c == quoteChar then some (String.mk acc.reverse, cs)
    else if c == backslashChar then
      match cs with
      | [] => none
      | e :: cs2 =>
        if e == quoteChar then parseStringBody (quoteChar :: acc) cs2
        else if e == backslashChar then parseStringBody (backslashChar :: acc) cs2
        else if e == '/' then parseStringBody ('/' :: acc) cs2
        else if e == 'n' then parseStringBody ('\n' :: acc) cs2
        else if e == 't' then parseStringBody ('\t' :: acc) cs2
        else if e == 'r' then parseStringBody ('\r' :: acc) cs2
        else if e == 'b' then parseStringBody (Char.ofNat 8 :: acc) cs2
        else if e == 'f' then parseStringBody (Char.ofNat 12 :: acc) cs2
        else if e == 'u' then
          match cs2 with
          | h1 :: h2 :: h3 :: h4 :: cs3 =>
            match hexVal h1, hexVal h2, hexVal h3, hexVal h4 with
            | some a, some b, some c3, some d =>
              parseStringBody (Char.ofNat (((a * 16 + b) * 16 + c3) * 16 + d) :: acc) cs3
            | _, _, _, _ => none
          | _ => none
        else none
    else if c.toNat < 32 then none
    else parseStringBody (c :: acc) cs

/-- Split off a maximal run of decimal digits. -/
def takeDigits : List Char → List Char × List Char
  | [] => ([], [])
  | c :: cs =>
    if c.isDigit then
      let p := takeDigits cs
      (c :: p.fst, p.snd)
    else ([], c :: cs)

/-- Numeric value of a digit run. -/
def digitsToNat (ds : List Char) : Nat := ds.foldl (fun acc c => acc * 10 + (c.toNat - 48)) 0

/-- Consume an expected literal word. -/
def dropLit : List Char → List Char → Option (List Char)
  | [], rest => some rest
  | l :: ls, c :: rest => if c == l then dropLit ls rest else none
  | _ :: _, [] => none

/-- Parse a JSON number (sign, integer part without leading zeros, optional
fraction and exponent) into a rational. -/
def parseNumber (cs0 : List Char) : Option (Rat × List Char) :=
  let signed : Bool × List Char :=
    match cs0 with
    | c :: rest => if c == '-' then (true, rest) else (false, cs0)
    | [] => (false, cs0)
  match signed.snd with
  | [] => none
  | c :: _ =>
    if !c.isDigit then none
    else
      let ip := takeDigits signed.snd
      let leadingZeroBad : Bool :=
        match ip.fst with
        | d :: _ :: _ => d == '0'
        | _ => false
      if leadingZeroBad then none
      else
        let fracStep : Option (List Char × List Char) :=
          match ip.snd with
          | c2 :: rest2 =>
            if c2 == '.' then
              let fp := takeDigits rest2
              if fp.fst.isEmpty then none else some (fp.fst, fp.snd)
            else some ([], ip.snd)
          | [] => some ([], ip.snd)
        match fracStep with
        | none => none
        | some (fds, cs3) =>
          let expStep : Option (Int × List Char) :=
            match cs3 with
            | e :: rest3 =>
              if e == 'e' || e == 'E' then
                let se : Bool × List Char :=
                  match rest3 with
                  | s :: r4 =>
                    if s == '+' then (false, r4)
                    else if s == '-' then (true, r4)
                    else (false, rest3)
                  | [] => (false, rest3)
                let ep := takeDigits se.snd
                if ep.fst.isEmpty then none
                else
                  let e0 : Int := Int.ofNat (digitsToNat ep.fst)
                  some (if se.fst then -e0 else e0, ep.snd)
              else some (0, cs3)
            | [] => some (0, cs3)
          match expStep with
          | none => none
          | some (ex, cs4) =>
            let mantissa : Nat := digitsToNat ip.fst * 10 ^ fds.length + digitsToNat fds
            let base : Rat := (mantissa : Rat) / ((10 : Rat) ^ fds.length)
            let scaled : Rat :=
              if 0 ≤ ex then base * (10 : Rat) ^ ex.toNat
              else base / (10 : Rat) ^ (-ex).toNat
            some (if signed.fst then -scaled else scaled, cs4)

mutual

/-- Fuel-indexed recursive-descent JSON value parser, modelling the
platform JSON.parse primitive used by the page. -/
def parseValue : Nat → List Char → Option (JSValue × List Char)
  | 0, _ => none
  | Nat.succ fuel, cs =>
    match skipWs cs with
    | [] => none
    | c :: rest =>
      if c == quoteChar then
        (parseStringBody [] rest).map (fun p => (JSValue.str p.fst, p.snd))
      else if c == lbraceChar then
        match skipWs rest with
        | c2 :: rest2 =>
          if c2 == rbraceChar then some (JSValue.obj [], rest2)
          else
            match parseMembers fuel (c2 :: rest2) with
            | some (fields, r) => some (JSValue.obj fields, r)
            | none => none
        | [] => none
      else if c == '[' then
        match skipWs rest with
        | c2 :: rest2 =>
          if c2 == ']' then some (JSValue.arr [], rest2)
          else
            match parseElements fuel (c2 :: rest2) with
            | some (elems, r) => some (JSValue.arr elems, r)
            | none => none
        | [] => none
      else
        match dropLit "true".toList (c :: rest) with
        | some r => some (JSValue.bool true, r)
        | none =>
          match dropLit "false".toList (c :: rest) with
          | some r => some (JSValue.bool false, r)
          | none =>
            match dropLit "null".toList (c :: rest) with
            | some r => some (JSValue.null, r)
            | none =>
              (parseNumber (c :: rest)).map (fun p => (JSValue.num p.fst, p.snd))

/-- Parse the members of a JSON object after the opening brace (non-empty
case), up to and including the closing brace. -/
def parseMembers : Nat → List Char → Option (List (String × JSValue) × List Char)
  | 0, _ => none
  | Nat.succ fuel, cs =>
    match skipWs cs with
    | c :: rest =>
      if c == quoteChar then
        match parseStringBody [] rest with
        | some (key, r1) =>
          match skipWs r1 with
          | ':' :: r2 =>
            match parseValue fuel r2 with
            | some (v, r3) =>
              match skipWs r3 with
              | ',' :: r4 =>
                match parseMembers fuel r4 with
                | some (fields, r5) => some ((key, v) :: fields, r5)
                | none => none
              | c4 :: r4 =>
                if c4 == rbraceChar then some ([(key, v)], r4) else none
              | [] => none
            | none => none
          | _ => none
        | none => none
      else none
    | [] => none

/-- Parse the elements of a JSON array after the opening bracket (non-empty
case), up to and including the closing bracket. -/
def parseElements : Nat → List Char → Option (List JSValue × List Char)
  | 0, _ => none
  | Nat.succ fuel, cs =>
    match parseValue fuel cs with
    | some (v, r1) =>
      match skipWs r1 with
      | ',' :: r2 =>
        match parseElements fuel r2 with
        | some (elems, r3) => some (v :: elems, r3)
        | none => none
      | ']' :: r2 => some ([v], r2)
      | _ => none
    | none => none

end

/-- Model of JSON.parse: parse one value and require only whitespace after
it; any failure corresponds to the thrown SyntaxError. -/
def jsonParse (s : String) : Option JSValue :=
  match parseValue (s.length + 1) s.toList with
  | some (v, rest) => if skipWs rest == [] then some v else none
  | none => none

example : jsonParse "\x7b\"metadata\":\x7b\x7d\x7d" = some (JSValue.obj [("metadata", JSValue.obj [])]) := by rfl

example : jsonParse "not json" = none := by rfl

example : jsonParse "null" = some JSValue.null := by rfl

example : (jsonParse "[true, false]") = some (JSValue.arr [JSValue.bool true, JSValue.bool false]) := by rfl

/-- The four material categories of the page. -/
inductive Category where
  | doi
  | url
  | bibtex
  | pdf
deriving DecidableEq

/-- Uppercase rendering used by the submission builder (`f.type.toUpperCase()`). -/
def Category.upper : Category → String
  | .doi => "DOI"
  | .url => "URL"
  | .bibtex => "BIBTEX"
  | .pdf => "PDF"

/-- One ingested material record (interface UploadedFile). -/
structure UploadedFile where
  id : String
  name : String
  type : Category
  content : String
deriving DecidableEq

/-- JavaScript String.prototype.startsWith over code points. -/
def jsStartsWith (s p : String) : Bool := p.toList.isPrefixOf s.toList

/-- JavaScript String.prototype.endsWith over code points. -/
def jsEndsWith (s p : String) : Bool := p.toList.isSuffixOf s.toList

/-- JavaScript whitespace recognized by String.prototype.trim (the ASCII
part plus no-break space; the claims only exercise the ASCII part). -/
def isJsSpace (c : Char) : Bool :=
  c == ' ' || c == '\t' || c == '\n' || c == '\r' ||
    c == Char.ofNat 11 || c == Char.ofNat 12 || c == Char.ofNat 160

/-- JavaScript String.prototype.trim. -/
def jsTrim (s : String) : String :=
  String.mk (((s.toList.dropWhile isJsSpace).reverse.dropWhile isJsSpace).reverse)

/-- The DOI test of the classifier: the regex matches 10. followed by at
least one digit, anchored at the start of the raw content. -/
def doiMatch (s : String) : Bool :=
  match s.toList with
  | '1' :: '0' :: '.' :: c :: _ => c.isDigit
  | _ => false

/-- The classification heuristic of processFiles: first-match rule list over
raw (untrimmed) content, filename and declared MIME type. -/
def classify (content : String) (name : String) (declaredType : String) : Category :=
  if jsEndsWith name ".bib" || declaredType == "text/plain" then .bibtex
  else if declaredType == "application/pdf" then .pdf
  else if jsStartsWith content "http" then .url
  else if doiMatch content then .doi
  else .pdf

/-- Id generation: the template joining the current millisecond clock and a
randomized suffix, as in Date.now() and Math.random(). -/
def genId (now : Nat) (randSuffix : String) : String :=
  toString now ++ "-" ++ randSuffix

/-- Record construction in processFiles: the display name falls back to
Untitled when the filename is empty (falsy). -/
def mkUploadedRecord (id : String) (content : String) (name : String) (declaredType : String) : UploadedFile :=
  { id := id
    name := if name == "" then "Untitled" else name
    type := classify content name declaredType
    content := content }

/-- Registry append (setFiles prev => [...prev, newFile]). -/
def addFile (files : List UploadedFile) (f : UploadedFile) : List UploadedFile :=
  files ++ [f]

/-- Registry removal (setFiles prev => prev.filter f.id ≠ id). -/
def removeFile (files : List UploadedFile) (id : String) : List UploadedFile :=
  files.filter (fun f => f.id != id)

/-- One registry operation. -/
inductive RegOp where
  | add (f : UploadedFile)
  | remove (id : String)

/-- Apply one registry operation. -/
def applyOp (files : List UploadedFile) : RegOp → List UploadedFile
  | .add f => addFile files f
  | .remove i => removeFile files i

/-- Apply a sequence of registry operations in order. -/
def applyOps (files : List UploadedFile) : List RegOp → List UploadedFile
  | [] => files
  | op :: rest => applyOps (applyOp files op) rest

/-- Freshness of generated ids along a run: every added id differs from all
ids present in the registry at the moment of the addition. -/
def opsFresh (files : List UploadedFile) : List RegOp → Bool
  | [] => true
  | .add f :: rest => files.all (fun g => g.id != f.id) && opsFresh (addFile files f) rest
  | .remove i :: rest => opsFresh (removeFile files i) rest

/-- The records added by a run, in arrival order. -/
def opAdds : List RegOp → List UploadedFile
  | [] => []
  | .add f :: rest => f :: opAdds rest
  | .remove _ :: rest => opAdds rest

/-- All records ever present, in arrival order. -/
def arrivals (files : List UploadedFile) (ops : List RegOp) : List UploadedFile :=
  files ++ opAdds ops

/-- The ids of a registry, in order. -/
def registryIds (files : List UploadedFile) : List String :=
  files.map (fun f => f.id)

/-- One formatted line of the submission payload. -/
def formatRecord (f : UploadedFile) : String :=
  "[" ++ f.type.upper ++ "]: " ++ f.content

/-- The submission payload: every record formatted in registry order,
joined with a blank line. -/
def formattedInput (files : List UploadedFile) : String :=
  String.intercalate "\n\n" (files.map formatRecord)

/-- Recursive restatement of the payload shape claimed by the spec: one
line per record, consecutive lines separated by a blank line. -/
def specPayload : List UploadedFile → String
  | [] => ""
  | [f] => formatRecord f
  | f :: rest => formatRecord f ++ "\n\n" ++ specPayload rest

/-- The fixed task description prefixed to the formatted materials. -/
def taskDescription : String :=
  "Process these research materials and generate a comprehensive literature review with standardized metadata extraction, 150-word summaries per paper, and a comparative analysis table:\n\n"

/-- The full message built for the engine request. -/
def buildMessage (files : List UploadedFile) : String :=
  taskDescription ++ formattedInput files

/-- The mutable session state of the page component that the claims touch:
registry, pending URL input, busy flag, error banner and canonical result.
The error slot and result hold runtime values, as React state does. -/
structure AppState where
  files : List UploadedFile
  urlInput : String
  loading : Bool
  error : Option JSValue
  result : Option JSValue

/-- Outcome of validating one engine response envelope. -/
inductive ValidationOutcome where
  | failure (msg : JSValue)
  | accepted (v : JSValue)

/-- Resolution of the loosely-typed payload: a textual payload is handed to
JSON.parse (none models the thrown parse error), an already-structured one
passes through. -/
def payloadOf (data : JSValue) : Option JSValue :=
  match getField data "response" with
  | .str s => jsonParse s
  | v => some v

/-- The sequential validation of generateReview over the decoded envelope:
success flag, payload presence, deserialization of a textual payload, then
the non-null and metadata checks, in that order with short-circuiting. -/
def validateEnvelope (data : JSValue) : ValidationOutcome :=
  if !truthy (getField data "success") then
    .failure (jsOr (getField data "error") (.str "Failed to generate review"))
  else if !truthy (getField data "response") then
    .failure (.str "No response from agent")
  else
    match payloadOf data with
    | none => .failure (.str "Failed to parse agent response")
    | some parsed =>
      if !truthy parsed || !truthy (getField parsed "metadata") then
        .failure (.str "Invalid response format - missing metadata")
      else .accepted parsed

/-- The generateReview transition.  The second component is the message
sent to the engine (none when the empty-registry guard returns before any
request is built).  The envelope value decoded from the network reply is
taken as input; the finally clause clears the busy flag on every path. -/
def generateReview (st : AppState) (data : JSValue) : AppState × Option String :=
  if st.files.length = 0 then (st, none)
  else
    let payload := buildMessage st.files
    match validateEnvelope data with
    | .failure e =>
      ({ st with loading := false, error := some e }, some payload)
    | .accepted v =>
      ({ st with loading := false, error := none, result := some v }, some payload)

/-- The addUrl transition, parameterized by the platform URL-constructor
success predicate and by the generated id.  An empty trimmed input returns
at once; a failed parse clears the input buffer only; a successful parse
appends a url record and clears the buffer. -/
def addUrl (urlParses : String → Bool) (newId : String) (st : AppState) : AppState :=
  if jsTrim st.urlInput == "" then st
  else
    let url := jsTrim st.urlInput
    if !urlParses url then { st with urlInput := "" }
    else
      { st with
        files := st.files ++ [{ id := newId, name := url, type := .url, content := url }]
        urlInput := "" }

/-- One produced download: the value handed to the Blob and the chosen
filename. -/
structure ExportArtifact where
  content : JSValue
  filename : String

/-- Optional-chained field of the canonical result (result?.key). -/
def resultField (st : AppState) (key : String) : JSValue :=
  match st.result with
  | none => JSValue.undefined
  | some r => getField r key

/-- JavaScript nullish coalescing (a ?? b). -/
def nullish (a b : JSValue) : JSValue :=
  match a with
  | .null => b
  | .undefined => b
  | v => v

/-- The exportMarkdown action: none models the early return when the
markdown_output field is absent or falsy. -/
def exportMarkdown (st : AppState) (isoDate : String) : Option ExportArtifact :=
  let m := resultField st "markdown_output"
  if !truthy m then none
  else some { content := m, filename := "literature-review-" ++ isoDate ++ ".md" }

/-- The exportJSON action, parameterized by the platform 2-space-indented
serializer JSON.stringify(v, null, 2). -/
def exportJSON (stringify : JSValue → String) (st : AppState) (isoDate : String) : Option ExportArtifact :=
  let j := resultField st "json_output"
  if !truthy j then none
  else
    some { content := .str (stringify j)
           filename := "literature-review-" ++ isoDate ++ ".json" }

/-- The prose view source: result?.markdown_output ?? placeholder. -/
def markdownView (st : AppState) : JSValue :=
  nullish (resultField st "markdown_output") (.str "No markdown output available")

/-- The structured view serialization: stringify of
result?.json_output ?? empty object. -/
def structuredView (stringify : JSValue → String) (st : AppState) : String :=
  stringify (nullish (resultField st "json_output") (.obj []))

/-- State of the copy-feedback mechanism: the single copiedIndex slot and
the expiry instants of every scheduled, still-pending setTimeout callback
(each callback sets the slot back to null). -/
structure TimerState where
  copiedIndex : Option String
  pending : List Nat
deriving DecidableEq

/-- Fire every scheduled callback strictly due before the given instant:
each one clears the slot; fired timers leave the pending list. -/
def fireBefore (now : Nat) (st : TimerState) : TimerState :=
  { copiedIndex := if st.pending.any (fun t => decide (t < now)) then none else st.copiedIndex
    pending := st.pending.filter (fun t => decide (now ≤ t)) }

/-- Fire every scheduled callback due at or before the given instant. -/
def fireUpTo (now : Nat) (st : TimerState) : TimerState :=
  { copiedIndex := if st.pending.any (fun t => decide (t ≤ now)) then none else st.copiedIndex
    pending := st.pending.filter (fun t => decide (now < t)) }

/-- The copyToClipboard transition at a given instant: timers already due
have fired; the slot is set to the new target and a fresh 2000 ms expiry is
scheduled.  No existing timer is cancelled. -/
def copyStep (st : TimerState) (now : Nat) (id : String) : TimerState :=
  let st1 := fireBefore now st
  { copiedIndex := some id, pending := st1.pending ++ [now + 2000] }

/-- Run a chronological sequence of copy events. -/
def runCopies (st : TimerState) : List (Nat × String) → TimerState
  | [] => st
  | (t, id) :: rest => runCopies (copyStep st t id) rest

/-- The indicator observed at an instant after the last event: every timer
due at or before that instant has fired. -/
def observeAt (now : Nat) (st : TimerState) : Option String :=
  (fireUpTo now st).copiedIndex

/-- Join a list of lines, each preceded by the separator. -/
def joinTail (s : String) : List String → String
  | [] => ""
  | a :: as => s ++ a ++ joinTail s as

theorem intercalate_go_spec (s : String) :
    ∀ (as : List String) (acc : String),
      String.intercalate.go acc s as = acc ++ joinTail s as := by
  intro as
  induction as with
  | nil =>
    intro acc
    simp [String.intercalate.go, joinTail]
  | cons a as ih =>
    intro acc
    simp [String.intercalate.go, joinTail, ih, String.append_assoc]

theorem specPayload_cons_eq (rest : List UploadedFile) :
    ∀ f : UploadedFile,
      specPayload (f :: rest) = formatRecord f ++ joinTail "\n\n" (rest.map formatRecord) := by
  induction rest with
  | nil =>
    intro f
    simp [specPayload, joinTail]
  | cons g rest ih =>
    intro f
    show specPayload (f :: g :: rest) = _
    simp only [specPayload, List.map_cons, joinTail, ih g]
    rw [String.append_assoc, String.append_assoc]

/-- C4: for every registry, the built submission payload is the
concatenation, in registry order, of one line [CATEGORY_UPPERCASED]: content
per record, consecutive lines separated by a blank line; in particular the
two records [(bibtex, X), (doi, 10.123)] in that order produce the payload
[BIBTEX]: X, blank line, [DOI]: 10.123. -/
theorem C4_submission_payload :
    (∀ files : List UploadedFile, formattedInput files = specPayload files) ∧
    formattedInput
      [{ id := "a", name := "a.bib", type := Category.bibtex, content := "X" },
       { id := "b", name := "b", type := Category.doi, content := "10.123" }] =
      "[BIBTEX]: X\n\n[DOI]: 10.123" := by
  constructor
  · intro files
    cases files with
    | nil => rfl
    | cons f rest =>
      show String.intercalate "\n\n" ((f :: rest).map formatRecord) = _
      simp only [List.map_cons, String.intercalate]
      rw [intercalate_go_spec, specPayload_cons_eq]
  · rfl

/-- C3 counterexample: for the content consisting of a space followed by
http, with empty filename and empty declared type, neither rule 1 nor
rule 2 applies and the trimmed content begins with http, yet the classifier
returns pdf rather than url: the code tests the raw, untrimmed content. -/
theorem C3_counterexample :
    jsStartsWith (jsTrim " http") "http" = true ∧
    (jsEndsWith "" ".bib" || ("" : String) == "text/plain") = false ∧
    (("" : String) == "application/pdf") = false ∧
    classify " http" "" "" = Category.pdf ∧
    classify " http" "" "" ≠ Category.url := by
  refine ⟨by decide, by decide, by decide, by rfl, by decide⟩

/-- C3 amended: when neither rule 1 (bibliography extension or plain-text
declared type) nor rule 2 (PDF declared type) applies, the classifier
returns url when the RAW content begins with http, otherwise doi when the
raw content begins with 10. followed by a digit, otherwise pdf; and empty
content with no filename and no declared type yields pdf. -/
theorem C3_classifier_rules (content name declaredType : String)
    (h1 : (jsEndsWith name ".bib" || declaredType == "text/plain") = false)
    (h2 : (declaredType == "application/pdf") = false) :
    classify content name declaredType =
      (if jsStartsWith content "http" then Category.url
       else if doiMatch content then Category.doi
       else Category.pdf) ∧
    classify "" "" "" = Category.pdf := by
  refine ⟨?_, by rfl⟩
  unfold classify
  rw [h1, h2]
  simp

/-- Witness for C3: a DOI-shaped content with no filename and no declared
type is classified doi by the amended rule. -/
theorem C3_classifier_rules_witness :
    classify "10.5/abc" "paper" "" = Category.doi := by
  have h := C3_classifier_rules "10.5/abc" "paper" "" (by decide) (by decide)
  calc classify "10.5/abc" "paper" ""
      = (if jsStartsWith "10.5/abc" "http" then Category.url
         else if doiMatch "10.5/abc" then Category.doi
         else Category.pdf) := h.1
    _ = Category.doi := by decide

/-- The state used by the C8 counterexample: a whitespace-only pending
input. -/
def whitespaceInputState : AppState :=
  { files := [], urlInput := " ", loading := false, error := none, result := none }

/-- C8 counterexample: for the input of a single space, whose trimmed form
is empty and parses as no URL, addUrl leaves the registry unchanged but
also leaves the input buffer uncleared (still the single space), under any
URL-validity predicate: the empty-trim guard returns before the clearing
write. -/
theorem C8_counterexample :
    jsTrim " " = "" ∧
    addUrl (fun _ => false) "7-0.1" whitespaceInputState = whitespaceInputState ∧
    addUrl (fun _ => true) "7-0.1" whitespaceInputState = whitespaceInputState ∧
    whitespaceInputState.urlInput = " " ∧
    whitespaceInputState.urlInput ≠ "" := by
  refine ⟨by decide, by rfl, by rfl, by rfl, by decide⟩

/-- C8 amended: when the trimmed input is empty, addUrl changes nothing at
all (buffer included); when the trimmed input is non-empty and fails URL
parsing, the registry is unchanged and the buffer is cleared; when it
parses, exactly one url record is appended and the buffer is cleared. -/
theorem C8_url_admission (urlParses : String → Bool) (newId : String) (st : AppState) :
    (jsTrim st.urlInput = "" → addUrl urlParses newId st = st) ∧
    (jsTrim st.urlInput ≠ "" → urlParses (jsTrim st.urlInput) = false →
      addUrl urlParses newId st = { st with urlInput := "" }) ∧
    (jsTrim st.urlInput ≠ "" → urlParses (jsTrim st.urlInput) = true →
      addUrl urlParses newId st =
        { st with
          files := st.files ++
            [{ id := newId, name := jsTrim st.urlInput, type := Category.url,
               content := jsTrim st.urlInput }]
          urlInput := "" }) := by
  unfold addUrl
  refine ⟨fun h => ?_, fun h hv => ?_, fun h hv => ?_⟩
  · simp [h]
  · simp [h, hv]
  · simp [h, hv]

/-- Witness for C8: a parseable padded URL is admitted as one url record
and the buffer is cleared. -/
theorem C8_url_admission_witness :
    addUrl (fun s => jsStartsWith s "http") "9-0.2"
        { files := [], urlInput := " https://x ", loading := false,
          error := none, result := none } =
      { files := [{ id := "9-0.2", name := "https://x", type := Category.url,
                    content := "https://x" }],
        urlInput := "", loading := false, error := none, result := none } := by
  have h := C8_url_admission (fun s => jsStartsWith s "http") "9-0.2"
    { files := [], urlInput := " https://x ", loading := false,
      error := none, result := none }
  exact h.2.2 (by decide) (by decide)

/-- The empty-registry state used by the C9 counterexample. -/
def emptyRegistryState : AppState :=
  { files := [], urlInput := "", loading := false, error := none, result := none }

/-- C9 counterexample: with an empty registry, generateReview builds and
sends nothing and never partially submits, but no reportable condition is
surfaced either: the guard returns silently, the error slot stays empty and
the state is unchanged. -/
theorem C9_counterexample :
    generateReview emptyRegistryState (JSValue.obj []) = (emptyRegistryState, none) ∧
    (generateReview emptyRegistryState (JSValue.obj [])).fst.error = none := by
  exact ⟨rfl, rfl⟩

/-- C9 amended: submitting with an empty registry is a silent no-op: no
request is built or sent, and the whole state (error banner included) is
left unchanged; the guard surfaces nothing, the submit control being
disabled separately in the view. -/
theorem C9_empty_submission (st : AppState) (data : JSValue) (h : st.files = []) :
    generateReview st data = (st, none) := by
  unfold generateReview
  simp [h]

/-- Witness for C9: the no-op behavior at a concrete empty-registry state
carrying a prior result and error. -/
theorem C9_empty_submission_witness :
    generateReview
        { files := [], urlInput := "u", loading := true,
          error := some (JSValue.str "old"), result := some (JSValue.obj []) }
        (JSValue.obj [("success", JSValue.bool true)]) =
      ({ files := [], urlInput := "u", loading := true,
         error := some (JSValue.str "old"), result := some (JSValue.obj []) }, none) :=
  C9_empty_submission _ _ rfl

theorem generateReview_failure (st : AppState) (data e : JSValue)
    (h : st.files ≠ []) (hv : validateEnvelope data = ValidationOutcome.failure e) :
    generateReview st data =
      ({ st with loading := false, error := some e }, some (buildMessage st.files)) := by
  unfold generateReview
  rw [if_neg (fun hc => h (List.length_eq_zero.mp hc)), hv]

theorem generateReview_accepted (st : AppState) (data v : JSValue)
    (h : st.files ≠ []) (hv : validateEnvelope data = ValidationOutcome.accepted v) :
    generateReview st data =
      ({ st with loading := false, error := none, result := some v },
       some (buildMessage st.files)) := by
  unfold generateReview
  rw [if_neg (fun hc => h (List.length_eq_zero.mp hc)), hv]

/-- A concrete one-record session state with a prior canonical result and
a pending error, used to instantiate the envelope theorems. -/
def oneFileState : AppState :=
  { files := [{ id := "1-0.1", name := "a.bib", type := Category.bibtex, content := "X" }],
    urlInput := "", loading := true, error := none,
    result := some (JSValue.str "prior") }

/-- C10: an envelope with success true and an empty-string response is
rejected by the payload-presence check with the No response from agent
error (empty text is falsy, hence treated as absent, before any parse is
attempted), and the existing canonical result is unchanged. -/
theorem C10_empty_text_payload (st : AppState) (h : st.files ≠ []) :
    truthy (JSValue.str "") = false ∧
    (generateReview st
        (JSValue.obj [("success", JSValue.bool true), ("response", JSValue.str "")])).fst.error
      = some (JSValue.str "No response from agent") ∧
    (generateReview st
        (JSValue.obj [("success", JSValue.bool true), ("response", JSValue.str "")])).fst.result
      = st.result := by
  have hg := generateReview_failure st
    (JSValue.obj [("success", JSValue.bool true), ("response", JSValue.str "")])
    (JSValue.str "No response from agent") h rfl
  rw [hg]
  exact ⟨rfl, rfl, rfl⟩

/-- Witness for C10 at a concrete one-record state: the error is the
payload-presence message and the prior canonical result survives. -/
theorem C10_empty_text_payload_witness :
    (generateReview oneFileState
        (JSValue.obj [("success", JSValue.bool true), ("response", JSValue.str "")])).fst.error
      = some (JSValue.str "No response from agent") ∧
    (generateReview oneFileState
        (JSValue.obj [("success", JSValue.bool true), ("response", JSValue.str "")])).fst.result
      = some (JSValue.str "prior") := by
  have h := C10_empty_text_payload oneFileState (by decide)
  exact ⟨h.2.1, h.2.2⟩

/-- Envelope with success false and no error text. -/
def envFailBare : JSValue := JSValue.obj [("success", JSValue.bool false)]

/-- Envelope with success false and engine-supplied error text. -/
def envFailText : JSValue :=
  JSValue.obj [("success", JSValue.bool false), ("error", JSValue.str "engine reported failure")]

/-- Envelope with success true and null payload. -/
def envNullPayload : JSValue :=
  JSValue.obj [("success", JSValue.bool true), ("response", JSValue.null)]

/-- Envelope with success true and the textual payload whose JSON text is
an object holding an empty metadata object. -/
def envMetadataText : JSValue :=
  JSValue.obj [("success", JSValue.bool true),
               ("response", JSValue.str "\x7b\"metadata\":\x7b\x7d\x7d")]

/-- C2: the validator checks the success flag first (engine text or the
generic fallback), then payload presence: success false and null payload
are rejected with distinct errors, while the textual payload holding an
empty metadata object is accepted, deserialized, and wholesale replaces the
canonical result of any prior state. -/
theorem C2_validator_cases (st : AppState) (h : st.files ≠ []) :
    validateEnvelope envFailBare
      = ValidationOutcome.failure (JSValue.str "Failed to generate review") ∧
    validateEnvelope envFailText
      = ValidationOutcome.failure (JSValue.str "engine reported failure") ∧
    validateEnvelope envNullPayload
      = ValidationOutcome.failure (JSValue.str "No response from agent") ∧
    ("Failed to generate review" : String) ≠ "No response from agent" ∧
    validateEnvelope envMetadataText
      = ValidationOutcome.accepted (JSValue.obj [("metadata", JSValue.obj [])]) ∧
    (generateReview st envMetadataText).fst.result
      = some (JSValue.obj [("metadata", JSValue.obj [])]) ∧
    (generateReview st envMetadataText).fst.error = none := by
  have hg := generateReview_accepted st envMetadataText
    (JSValue.obj [("metadata", JSValue.obj [])]) h rfl
  rw [hg]
  exact ⟨rfl, rfl, rfl, by decide, rfl, rfl, rfl⟩

/-- Witness for C2 at a concrete one-record state carrying a prior result:
the accepted value replaces that result wholesale. -/
theorem C2_validator_cases_witness :
    (generateReview oneFileState envMetadataText).fst.result
      = some (JSValue.obj [("metadata", JSValue.obj [])]) :=
  (C2_validator_cases oneFileState (by decide)).2.2.2.2.2.1

/-- C1: for every envelope object, validation is sequential and
short-circuiting: each failing step (success flag false; payload missing or
falsy; textual payload failing to deserialize; deserialized value falsy or
lacking a truthy metadata field) reports the error belonging to that step
and leaves the canonical result unchanged; the four step messages are
pairwise distinct. -/
theorem C1_validation_steps (st : AppState) (data : JSValue) (h : st.files ≠ []) :
    (truthy (getField data "success") = false →
      (generateReview st data).fst.error
          = some (jsOr (getField data "error") (JSValue.str "Failed to generate review")) ∧
      (generateReview st data).fst.result = st.result) ∧
    (truthy (getField data "success") = true →
      truthy (getField data "response") = false →
      (generateReview st data).fst.error = some (JSValue.str "No response from agent") ∧
      (generateReview st data).fst.result = st.result) ∧
    (truthy (getField data "success") = true →
      truthy (getField data "response") = true →
      payloadOf data = none →
      (generateReview st data).fst.error = some (JSValue.str "Failed to parse agent response") ∧
      (generateReview st data).fst.result = st.result) ∧
    (∀ parsed : JSValue,
      truthy (getField data "success") = true →
      truthy (getField data "response") = true →
      payloadOf data = some parsed →
      (truthy parsed = false ∨ truthy (getField parsed "metadata") = false) →
      (generateReview st data).fst.error
          = some (JSValue.str "Invalid response format - missing metadata") ∧
      (generateReview st data).fst.result = st.result) ∧
    (("Failed to generate review" : String) ≠ "No response from agent" ∧
     ("Failed to generate review" : String) ≠ "Failed to parse agent response" ∧
     ("Failed to generate review" : String) ≠ "Invalid response format - missing metadata" ∧
     ("No response from agent" : String) ≠ "Failed to parse agent response" ∧
     ("No response from agent" : String) ≠ "Invalid response format - missing metadata" ∧
     ("Failed to parse agent response" : String) ≠ "Invalid response format - missing metadata") := by
  refine ⟨fun hs => ?_, fun hs hr => ?_, fun hs hr hp => ?_, fun parsed hs hr hp hm => ?_,
    by decide, by decide, by decide, by decide, by decide, by decide⟩
  · have hv : validateEnvelope data
        = ValidationOutcome.failure
            (jsOr (getField data "error") (JSValue.str "Failed to generate review")) := by
      unfold validateEnvelope
      rw [hs]
      rfl
    rw [generateReview_failure st data _ h hv]
    exact ⟨rfl, rfl⟩
  · have hv : validateEnvelope data
        = ValidationOutcome.failure (JSValue.str "No response from agent") := by
      unfold validateEnvelope
      rw [hs, hr]
      rfl
    rw [generateReview_failure st data _ h hv]
    exact ⟨rfl, rfl⟩
  · have hv : validateEnvelope data
        = ValidationOutcome.failure (JSValue.str "Failed to parse agent response") := by
      unfold validateEnvelope
      rw [hs, hr, hp]
      rfl
    rw [generateReview_failure st data _ h hv]
    exact ⟨rfl, rfl⟩
  · have hv : validateEnvelope data
        = ValidationOutcome.failure (JSValue.str "Invalid response format - missing metadata") := by
      unfold validateEnvelope
      rw [hs, hr, hp]
      rcases hm with hm | hm <;> simp [hm]
    rw [generateReview_failure st data _ h hv]
    exact ⟨rfl, rfl⟩

/-- Witness for C1 at a concrete one-record state and the bare failure
envelope: step 1 reports the generic fallback error and the prior canonical
result survives. -/
theorem C1_validation_steps_witness :
    (generateReview oneFileState envFailBare).fst.error
        = some (JSValue.str "Failed to generate review") ∧
    (generateReview oneFileState envFailBare).fst.result = some (JSValue.str "prior") := by
  have h := C1_validation_steps oneFileState envFailBare (by decide)
  exact ⟨(h.1 rfl).1, (h.1 rfl).2⟩

theorem nullish_of_truthy (v w : JSValue) (h : truthy v = true) : nullish v w = v := by
  cases v <;> first | rfl | exact absurd h (by decide)

/-- C6: whenever the prose export fires its content is the markdown_output
field verbatim and equals the prose view source; whenever the structured
export fires its content is the serialization of json_output and equals the
structured view serialization; a falsy (absent) backing field makes the
action a no-op; filenames are literature-review-date with extension .md or
.json. -/
theorem C6_export_views (stringify : JSValue → String) (st : AppState) (isoDate : String) :
    (truthy (resultField st "markdown_output") = true →
      exportMarkdown st isoDate
        = some { content := resultField st "markdown_output",
                 filename := "literature-review-" ++ isoDate ++ ".md" } ∧
      markdownView st = resultField st "markdown_output") ∧
    (truthy (resultField st "markdown_output") = false →
      exportMarkdown st isoDate = none) ∧
    (truthy (resultField st "json_output") = true →
      exportJSON stringify st isoDate
        = some { content := JSValue.str (stringify (resultField st "json_output")),
                 filename := "literature-review-" ++ isoDate ++ ".json" } ∧
      structuredView stringify st = stringify (resultField st "json_output")) ∧
    (truthy (resultField st "json_output") = false →
      exportJSON stringify st isoDate = none) := by
  refine ⟨fun hm => ⟨?_, ?_⟩, fun hm => ?_, fun hj => ⟨?_, ?_⟩, fun hj => ?_⟩
  · unfold exportMarkdown
    simp [hm]
  · unfold markdownView
    exact nullish_of_truthy _ _ hm
  · unfold exportMarkdown
    simp [hm]
  · unfold exportJSON
    simp [hj]
  · unfold structuredView
    rw [nullish_of_truthy _ _ hj]
  · unfold exportJSON
    simp [hj]

/-- A canonical result whose markdown output is a small title document. -/
def titledResultState : AppState :=
  { files := [], urlInput := "", loading := false, error := none,
    result := some (JSValue.obj
      [("markdown_output", JSValue.str "# Title"),
       ("json_output", JSValue.obj [("papers", JSValue.arr [])])]) }

/-- Witness for C6: after setting markdown_output to a title line, the
prose export content equals exactly that line and the prose view shows it. -/
theorem C6_export_views_witness :
    exportMarkdown titledResultState "2026-10-11"
      = some { content := JSValue.str "# Title",
               filename := "literature-review-2026-10-11.md" } ∧
    markdownView titledResultState = JSValue.str "# Title" := by
  have h := (C6_export_views (fun _ => "") titledResultState "2026-10-11").1 (by rfl)
  exact ⟨h.1, h.2⟩

/-- The idle feedback state: no indicator, no pending timer. -/
def timerInit : TimerState := { copiedIndex := none, pending := [] }

/-- Copy target A at instant 0, then target B at instant 500. -/
def copyThenCopy : TimerState := runCopies timerInit [(0, "A"), (500, "B")]

/-- C7 counterexample: after copying A at 0 and B at 500, the indicator
shows only B, but the uncancelled timer of A fires at 2000, so the
indicator is already neutral at instant 2000 with no superseding copy,
instead of reverting exactly 2000 ms after the most recent copy (2500). -/
theorem C7_counterexample :
    copyThenCopy.copiedIndex = some "B" ∧
    observeAt 1999 copyThenCopy = some "B" ∧
    observeAt 2000 copyThenCopy = none ∧
    2000 < 500 + 2000 := by
  exact ⟨rfl, rfl, rfl, by decide⟩

/-- C7 amended: the copied state is single-slot and every copy immediately
overrides the display, so the last copy of any sequence is the only target
shown at its end; but a new copy cancels nothing: it only appends its own
2000 ms expiry to the pending timers, every one of which clears the slot
when it fires, so the indicator reverts at the earliest outstanding expiry
rather than 2000 ms after the most recent copy (concretely, after A at 0
and B at 500 the slot is clear already at 2000). -/
theorem C7_single_slot (st : TimerState) (evs : List (Nat × String)) (t : Nat) (id : String) :
    (runCopies st (evs ++ [(t, id)])).copiedIndex = some id ∧
    (copyStep st t id).copiedIndex = some id ∧
    (copyStep st t id).pending = (fireBefore t st).pending ++ [t + 2000] ∧
    observeAt 2000 copyThenCopy = none ∧
    copyThenCopy.copiedIndex = some "B" := by
  refine ⟨?_, rfl, rfl, rfl, rfl⟩
  induction evs generalizing st with
  | nil => rfl
  | cons e rest ih =>
    cases e with
    | mk te ide =>
      show (runCopies (copyStep st te ide) (rest ++ [(t, id)])).copiedIndex = some id
      exact ih (copyStep st te ide)

theorem registryIds_append (a b : List UploadedFile) :
    registryIds (a ++ b) = registryIds a ++ registryIds b := by
  simp [registryIds]

theorem applyOps_nodup (ops : List RegOp) :
    ∀ files : List UploadedFile, (registryIds files).Nodup → opsFresh files ops = true →
      (registryIds (applyOps files ops)).Nodup := by
  induction ops with
  | nil =>
    intro files h _
    exact h
  | cons op rest ih =>
    intro files h hf
    cases op with
    | add f =>
      simp only [opsFresh, Bool.and_eq_true] at hf
      refine ih (addFile files f) ?_ hf.2
      rw [addFile, registryIds_append, List.nodup_append]
      refine ⟨h, List.nodup_singleton _, ?_⟩
      intro a ha hb
      have hb' : a = f.id := by simpa [registryIds] using hb
      obtain ⟨g, hg, hga⟩ := by simpa [registryIds] using ha
      have := List.all_eq_true.mp hf.1 g hg
      rw [bne_iff_ne] at this
      exact this (hga.trans hb')
    | remove i =>
      simp only [opsFresh] at hf
      refine ih (removeFile files i) ?_ hf
      exact List.Nodup.sublist (List.Sublist.map _ (List.filter_sublist files)) h

theorem applyOps_sublist (ops : List RegOp) :
    ∀ files : List UploadedFile, List.Sublist (applyOps files ops) (arrivals files ops) := by
  induction ops with
  | nil =>
    intro files
    simp [applyOps, arrivals, opAdds]
  | cons op rest ih =>
    intro files
    cases op with
    | add f =>
      have h := ih (addFile files f)
      simp only [applyOps, applyOp, arrivals, opAdds, addFile] at h ⊢
      rw [← List.append_cons] at h
      exact h
    | remove i =>
      have h := ih (removeFile files i)
      simp only [applyOps, applyOp, arrivals, opAdds] at h ⊢
      exact h.trans (List.Sublist.append_right (List.filter_sublist files) _)

theorem removeFile_noop (files : List UploadedFile) (i : String)
    (h : files.all (fun f => f.id != i) = true) : removeFile files i = files := by
  unfold removeFile
  exact List.filter_eq_self.mpr (List.all_eq_true.mp h)

theorem removeFile_unique (l1 l2 : List UploadedFile) (f : UploadedFile)
    (hnd : (registryIds (l1 ++ f :: l2)).Nodup) :
    removeFile (l1 ++ f :: l2) f.id = l1 ++ l2 := by
  have hnd' : ((l1.map fun g => g.id) ++ f.id :: (l2.map fun g => g.id)).Nodup := by
    simpa [registryIds] using hnd
  rw [List.nodup_append] at hnd'
  obtain ⟨h1, h2, hdisj⟩ := hnd'
  rw [List.nodup_cons] at h2
  have hfl1 : ∀ g ∈ l1, (g.id != f.id) = true := by
    intro g hg
    rw [bne_iff_ne]
    intro heq
    exact hdisj (List.mem_map_of_mem _ hg) (by simp [heq])
  have hfl2 : ∀ g ∈ l2, (g.id != f.id) = true := by
    intro g hg
    rw [bne_iff_ne]
    intro heq
    exact h2.1 (heq ▸ List.mem_map_of_mem _ hg)
  unfold removeFile
  rw [List.filter_append, List.filter_cons]
  rw [if_neg (by simp)]
  rw [List.filter_eq_self.mpr hfl1, List.filter_eq_self.mpr hfl2]

/-- Two records whose generated ids collide: the same millisecond clock
value and the same randomized suffix, as the time-plus-random template
permits. -/
def collidingA : UploadedFile :=
  { id := genId 5 "0.5", name := "a", type := Category.pdf, content := "x" }

/-- Second record with the identical colliding id. -/
def collidingB : UploadedFile :=
  { id := genId 5 "0.5", name := "b", type := Category.pdf, content := "y" }

/-- C5 counterexample: the id template gives no uniqueness guarantee: with
equal clock value and equal random suffix the two generated ids coincide,
two rapid additions then leave the registry with duplicate ids, and
removing that id deletes both records instead of the one. -/
theorem C5_counterexample :
    collidingA.id = collidingB.id ∧
    applyOps [] [RegOp.add collidingA, RegOp.add collidingB] = [collidingA, collidingB] ∧
    ¬ (registryIds (applyOps [] [RegOp.add collidingA, RegOp.add collidingB])).Nodup ∧
    removeFile (applyOps [] [RegOp.add collidingA, RegOp.add collidingB]) collidingA.id = [] := by
  refine ⟨rfl, rfl, by decide, rfl⟩

/-- C5 amended: provided every generated id differs from all ids present at
the instant of its addition (true only with probability, not by
construction), any add/remove sequence preserves distinct ids, the registry
is always an in-order selection of the records in arrival order, remove is
a no-op when no record carries the id, and remove deletes exactly the one
matching record when ids are distinct. -/
theorem C5_registry_invariants (files : List UploadedFile) (ops : List RegOp)
    (hnd : (registryIds files).Nodup) (hfresh : opsFresh files ops = true) :
    (registryIds (applyOps files ops)).Nodup ∧
    List.Sublist (applyOps files ops) (arrivals files ops) ∧
    (∀ i : String, files.all (fun f => f.id != i) = true → removeFile files i = files) ∧
    (∀ (l1 l2 : List UploadedFile) (f : UploadedFile),
      files = l1 ++ f :: l2 → removeFile files f.id = l1 ++ l2) := by
  refine ⟨applyOps_nodup ops files hnd hfresh, applyOps_sublist ops files,
    fun i hi => removeFile_noop files i hi, fun l1 l2 f hsplit => ?_⟩
  subst hsplit
  exact removeFile_unique l1 l2 f hnd

/-- A record with a fresh id generated at millisecond 1. -/
def freshR1 : UploadedFile :=
  { id := genId 1 "0.1", name := "a", type := Category.pdf, content := "x" }

/-- A record with a fresh id generated at millisecond 2. -/
def freshR2 : UploadedFile :=
  { id := genId 2 "0.2", name := "b", type := Category.url, content := "y" }

/-- Witness for C5: a concrete add-add-remove run with fresh ids keeps the
registry ids distinct. -/
theorem C5_registry_invariants_witness :
    (registryIds (applyOps []
        [RegOp.add freshR1, RegOp.add freshR2, RegOp.remove freshR1.id])).Nodup := by
  exact (C5_registry_invariants []
    [RegOp.add freshR1, RegOp.add freshR2, RegOp.remove freshR1.id]
    List.nodup_nil (by decide)).1
